import Mathlib

/-!
# Verification of the beer-forecast order-recommendation pipeline

A shallow embedding of `beer-forecast-function.py` (the HTTP function
`get_order_recommendations`) and proofs about it.

Modelling conventions:
* Calendar dates are day numbers in `ℤ`; the weekday of day `d` is `d % 7`
  with day `0` a Monday, matching Python's `date.weekday()` convention
  (Monday = 0, Sunday = 6).
* Temperatures and raw model outputs are rationals `ℚ`; `np.round` is
  embedded as round-half-to-even (`npRound`).
* The two day-level models (keys `来客数` / `総杯数` of `CUSTOMER_MODELS`)
  are `Option`-valued opaque functions over the `BASE_FEATURES` vector
  (temperature, weekday, month, weather code); the per-beer models
  (`BEER_MODELS`) form an association list of opaque functions over the
  `FEATURE_COLS` vector (visitors, cups, temperature, weekday, month,
  weather code).
* Python dicts appearing as data (`predicted_beers`, the per-window sums)
  are association lists; dict truthiness (`if not d:`) is list emptiness.
-/

/-- A raw forecast sample from the weather API: the fields of one `entry`
of `weather_data["list"]` that the function reads. `day` is the calendar
date of `entry["dt"]` as a day number, `hour` its local hour, `month` its
月, `desc` the weather description and `temp` `entry["main"]["temp"]`. -/
structure ForecastSample where
  day : ℤ
  hour : ℕ
  month : ℤ
  desc : String
  temp : ℚ
deriving DecidableEq, Repr

/-- One element of `forecast_data_list`: the per-day feature record built
from the selected midday sample. -/
structure DayFeatureRecord where
  date : ℤ
  avg_temperature : ℚ
  day_of_week : ℤ
  month : ℤ
  weather_code : ℤ
deriving DecidableEq, Repr

/-- The `WEATHER_CODE_MAP` table from the source, as an association list. -/
def WEATHER_CODE_MAP : List (String × ℤ) :=
  [("thunderstorm", 1), ("drizzle", 1), ("rain", 1), ("light rain", 1),
   ("moderate rain", 1), ("shower rain", 1), ("overcast clouds", 2),
   ("broken clouds", 2), ("scattered clouds", 3), ("few clouds", 4),
   ("clear sky", 5)]

/-- Embeds Python's `str.lower()` (character-wise lower-casing; the
table's keys are ASCII, for which `Char.toLower` agrees with it). -/
def toLowerStr (s : String) : String := ⟨s.data.map Char.toLower⟩

/-- Embeds `WEATHER_CODE_MAP.get(desc.lower(), 3)`: look the lower-cased
description up in the closed table, defaulting to 3. -/
def weather_code_of (desc : String) : ℤ :=
  (WEATHER_CODE_MAP.lookup (toLowerStr desc)).getD 3

/-- The constant `forecast_days_to_collect = 5` from the source. -/
def forecast_days_to_collect : ℕ := 5

/-- The record appended to `forecast_data_list` for a selected sample. -/
def mkDayRecord (e : ForecastSample) : DayFeatureRecord :=
  { date := e.day
    avg_temperature := e.temp
    day_of_week := e.day % 7
    month := e.month
    weather_code := weather_code_of e.desc }

/-- The body of the `for entry in weather_data["list"]` loop of the
source, recursing over the remaining samples. `processed` plays the role
of `processed_dates` (a set, kept as a duplicate-free list) and `acc` of
`forecast_data_list`. A sample is used only when its hour is 12, its date
is new and fewer than `forecast_days_to_collect` dates were processed;
Sunday dates (`weekday == 6`) are skipped by `continue`; after every
non-skipped iteration the loop breaks once enough dates were collected. -/
def normalizeAux : List ForecastSample → List ℤ → List DayFeatureRecord → List DayFeatureRecord
  | [], _, acc => acc
  | e :: rest, processed, acc =>
    if e.hour = 12 ∧ e.day ∉ processed ∧ processed.length < forecast_days_to_collect then
      if e.day % 7 = 6 then
        normalizeAux rest processed acc
      else
        if forecast_days_to_collect ≤ (e.day :: processed).length then acc ++ [mkDayRecord e]
        else normalizeAux rest (e.day :: processed) (acc ++ [mkDayRecord e])
    else
      if forecast_days_to_collect ≤ processed.length then acc
      else normalizeAux rest processed acc

/-- The Forecast Normalizer: the whole collection loop, started on empty
`processed_dates` and empty `forecast_data_list`. -/
def normalizeForecast (samples : List ForecastSample) : List DayFeatureRecord :=
  normalizeAux samples [] []

/-- Embeds `np.round`: round half to even, on `ℚ`. -/
def npRound (q : ℚ) : ℤ :=
  if q - ⌊q⌋ < 1 / 2 then ⌊q⌋
  else if 1 / 2 < q - ⌊q⌋ then ⌊q⌋ + 1
  else if ⌊q⌋ % 2 = 0 then ⌊q⌋ else ⌊q⌋ + 1

/-- The constant `AVG_VISITORS = 13` from the source. -/
def AVG_VISITORS : ℤ := 13

/-- The constant `AVG_CUPS = 22` from the source. -/
def AVG_CUPS : ℤ := 22

/-- A day-level model (`来客数` or `総杯数`): an opaque function of the
`BASE_FEATURES` vector (temperature, weekday, month, weather code). -/
def DayModel : Type := ℚ → ℤ → ℤ → ℤ → ℚ

/-- A per-beer model: an opaque function of the `FEATURE_COLS` vector
(visitors, cups, temperature, weekday, month, weather code). -/
def BeerModel : Type := ℤ → ℤ → ℚ → ℤ → ℤ → ℤ → ℚ

/-- The process-wide model registries: `CUSTOMER_MODELS` (its two possible
keys as two `Option` fields) and `BEER_MODELS` (an association list keyed
by beer name). -/
structure PipelineConfig where
  visitorsModel : Option DayModel
  cupsModel : Option DayModel
  beerModels : List (String × BeerModel)

/-- A row of `daily_forecast_df` after the prediction steps: the feature
record plus the `来客数`, `総杯数` and `predicted_beers` columns. -/
structure EnrichedDayRecord where
  date : ℤ
  avg_temperature : ℚ
  day_of_week : ℤ
  month : ℤ
  weather_code : ℤ
  predicted_visitors : ℤ
  predicted_total_units : ℤ
  predicted_beers : List (String × ℤ)
deriving DecidableEq, Repr

/-- The Demand Predictor applied to one row: `来客数` and `総杯数` are
`np.round(model.predict(BASE_FEATURES)).astype(int)` when the model is
loaded, else the fixed averages; each beer quantity is
`max(0, int(np.round(model.predict(FEATURE_COLS))))`, where the feature
vector contains the day-level predictions just computed for this row. -/
def enrich (cfg : PipelineConfig) (r : DayFeatureRecord) : EnrichedDayRecord :=
  let visitors : ℤ :=
    match cfg.visitorsModel with
    | some f => npRound (f r.avg_temperature r.day_of_week r.month r.weather_code)
    | none => AVG_VISITORS
  let cups : ℤ :=
    match cfg.cupsModel with
    | some f => npRound (f r.avg_temperature r.day_of_week r.month r.weather_code)
    | none => AVG_CUPS
  { date := r.date
    avg_temperature := r.avg_temperature
    day_of_week := r.day_of_week
    month := r.month
    weather_code := r.weather_code
    predicted_visitors := visitors
    predicted_total_units := cups
    predicted_beers := cfg.beerModels.map fun kf =>
      (kf.1, max 0 (npRound (kf.2 visitors cups r.avg_temperature r.day_of_week r.month r.weather_code))) }

/-- Embeds `next_monday_order_day = today + timedelta(days=(0 - today.weekday() + 7) % 7)`. -/
def next_monday_order_day (today : ℤ) : ℤ :=
  today + (0 - today % 7 + 7) % 7

/-- Embeds `next_thursday_order_day = today + timedelta(days=(3 - today.weekday() + 7) % 7)`. -/
def next_thursday_order_day (today : ℤ) : ℤ :=
  today + (3 - today % 7 + 7) % 7

/-- An order slot's window: order date, inclusive coverage range, label. -/
structure OrderWindow where
  order_date : ℤ
  coverage_start : ℤ
  coverage_end : ℤ
  label : String
deriving DecidableEq, Repr

/-- The Monday slot: `monday_order_start/end = next_monday_order_day + 1 / + 3`. -/
def mondayWindow (today : ℤ) : OrderWindow :=
  { order_date := next_monday_order_day today
    coverage_start := next_monday_order_day today + 1
    coverage_end := next_monday_order_day today + 3
    label := "月" }

/-- The Thursday slot: `thursday_order_start/end = next_thursday_order_day + 1 / + 4`. -/
def thursdayWindow (today : ℤ) : OrderWindow :=
  { order_date := next_thursday_order_day today
    coverage_start := next_thursday_order_day today + 1
    coverage_end := next_thursday_order_day today + 4
    label := "木" }

/-- One element of `order_recommendations_output`. -/
structure OrderRecommendation where
  order_date : ℤ
  order_day_label : String
  coverage_period_start : ℤ
  coverage_period_end : ℤ
  ordered_beers : List (String × ℤ)
deriving DecidableEq, Repr

/-- `calculate_order_period_sum(start_date, end_date)`: restrict the
enriched rows to dates in `[start_date, end_date]`; if none remain return
the empty dict, otherwise sum `predicted_beers.get(beer, 0)` over the
period for every beer of `all_beer_types`. -/
def calculate_order_period_sum (records : List EnrichedDayRecord) (beerTypes : List String)
    (start_date end_date : ℤ) : List (String × ℤ) :=
  if (records.filter fun r => decide (start_date ≤ r.date ∧ r.date ≤ end_date)).isEmpty then []
  else beerTypes.map fun k =>
    (k, ((records.filter fun r => decide (start_date ≤ r.date ∧ r.date ≤ end_date)).map
      fun r => (r.predicted_beers.lookup k).getD 0).sum)

/-- The recommendation dict appended for the Monday slot when its sums
are truthy. -/
def mondayRecommendation (records : List EnrichedDayRecord) (beerTypes : List String)
    (today : ℤ) : OrderRecommendation :=
  { order_date := (mondayWindow today).order_date
    order_day_label := (mondayWindow today).label
    coverage_period_start := (mondayWindow today).coverage_start
    coverage_period_end := (mondayWindow today).coverage_end
    ordered_beers := calculate_order_period_sum records beerTypes
      (mondayWindow today).coverage_start (mondayWindow today).coverage_end }

/-- The recommendation dict appended for the Thursday slot when its sums
are truthy. -/
def thursdayRecommendation (records : List EnrichedDayRecord) (beerTypes : List String)
    (today : ℤ) : OrderRecommendation :=
  { order_date := (thursdayWindow today).order_date
    order_day_label := (thursdayWindow today).label
    coverage_period_start := (thursdayWindow today).coverage_start
    coverage_period_end := (thursdayWindow today).coverage_end
    ordered_beers := calculate_order_period_sum records beerTypes
      (thursdayWindow today).coverage_start (thursdayWindow today).coverage_end }

/-- The 発注量計算 section: compute both slots' sums against the enriched
rows and append a recommendation for each slot whose dict is truthy
(non-empty), Monday slot first. -/
def build_order_recommendations (records : List EnrichedDayRecord) (beerTypes : List String)
    (today : ℤ) : List OrderRecommendation :=
  (if (calculate_order_period_sum records beerTypes (mondayWindow today).coverage_start
        (mondayWindow today).coverage_end).isEmpty then []
   else [mondayRecommendation records beerTypes today]) ++
  (if (calculate_order_period_sum records beerTypes (thursdayWindow today).coverage_start
        (thursdayWindow today).coverage_end).isEmpty then []
   else [thursdayRecommendation records beerTypes today])

/-- How the attempt to fetch the forecast can fail: the missing-API-key
`ValueError` raised before the request, or a `RequestException` from the
request itself. -/
inductive FetchOutcomeError where
  | configMissing
  | requestFailed
deriving DecidableEq, Repr

/-- The five distinguishable outcomes of one request to
`get_order_recommendations`: the models-not-ready 500 (the
`PredictionUnavailableError` of the design), the configuration 500, the
fetch 500 (`UpstreamFetchError`), the 404 (`NoForecastDataError`) and the
200 with the recommendation list. -/
inductive RunResult where
  | predictionUnavailable
  | configurationError
  | upstreamFetchError
  | noForecastData
  | success (recommendations : List OrderRecommendation)
deriving DecidableEq, Repr

/-- The whole HTTP function `get_order_recommendations`, given the loaded
models, the outcome of the external fetch and today's date: first the
`if not CUSTOMER_MODELS or not BEER_MODELS` gate, then fetch-error
propagation, then the `if not forecast_data_list` 404, then prediction
and the two-slot order computation. -/
def get_order_recommendations (cfg : PipelineConfig)
    (fetch : Except FetchOutcomeError (List ForecastSample)) (today : ℤ) : RunResult :=
  if (cfg.visitorsModel.isNone && cfg.cupsModel.isNone) || cfg.beerModels.isEmpty then
    RunResult.predictionUnavailable
  else
    match fetch with
    | Except.error FetchOutcomeError.configMissing => RunResult.configurationError
    | Except.error FetchOutcomeError.requestFailed => RunResult.upstreamFetchError
    | Except.ok samples =>
      let records := normalizeForecast samples
      if records.isEmpty then RunResult.noForecastData
      else
        RunResult.success
          (build_order_recommendations (records.map (enrich cfg))
            (cfg.beerModels.map Prod.fst) today)

/-! ## Concrete instances used to exercise the theorems below -/

/-- A constant day-level model predicting 9. -/
def mVis : DayModel := fun _ _ _ _ => (9 : ℚ)

/-- A constant day-level model predicting -5, as a regressor extrapolating
below zero would. -/
def mVisNeg : DayModel := fun _ _ _ _ => (-5 : ℚ)

/-- A constant per-beer model predicting 7. -/
def mBeer : BeerModel := fun _ _ _ _ _ _ => (7 : ℚ)

/-- A configuration with both day-level models and one beer model. -/
def cfgFull : PipelineConfig :=
  { visitorsModel := some mVis, cupsModel := some mVis, beerModels := [("IPA(本)", mBeer)] }

/-- A configuration with both day-level models loaded but no beer model. -/
def cfgCustomerOnly : PipelineConfig :=
  { visitorsModel := some mVis, cupsModel := some mVis, beerModels := [] }

/-- A configuration whose visitor model is absent. -/
def cfgNoVisitors : PipelineConfig :=
  { visitorsModel := none, cupsModel := some mVis, beerModels := [("IPA(本)", mBeer)] }

/-- A configuration whose visitor model predicts a negative count. -/
def cfgNegVisitors : PipelineConfig :=
  { visitorsModel := some mVisNeg, cupsModel := some mVis, beerModels := [("IPA(本)", mBeer)] }

/-- The beer-type key list matching the configurations above. -/
def beerTypesW : List String := ["IPA(本)"]

/-- A feature record for a Monday (day 0). -/
def recMonday : DayFeatureRecord :=
  { date := 0, avg_temperature := 20, day_of_week := 0, month := 7, weather_code := 3 }

/-- An enriched record on day 8 (a Tuesday). -/
def erA : EnrichedDayRecord :=
  { date := 8, avg_temperature := 20, day_of_week := 1, month := 7, weather_code := 3,
    predicted_visitors := 10, predicted_total_units := 20, predicted_beers := [("IPA(本)", 5)] }

/-- An enriched record on day 4 (a Friday). -/
def erB : EnrichedDayRecord :=
  { date := 4, avg_temperature := 18, day_of_week := 4, month := 7, weather_code := 2,
    predicted_visitors := 12, predicted_total_units := 22, predicted_beers := [("IPA(本)", 6)] }

/-- An enriched record on day 2 (a Wednesday). -/
def erC : EnrichedDayRecord :=
  { date := 2, avg_temperature := 18, day_of_week := 2, month := 7, weather_code := 2,
    predicted_visitors := 12, predicted_total_units := 22, predicted_beers := [("IPA(本)", 6)] }

/-- A midday sample on day 6, a Sunday. -/
def sSunNoon : ForecastSample :=
  { day := 6, hour := 12, month := 7, desc := "rain", temp := 20 }

/-- A midday sample on day 0, a Monday. -/
def sMonNoon : ForecastSample :=
  { day := 0, hour := 12, month := 7, desc := "clear sky", temp := 21 }

/-- A morning sample on day 0, a Monday, with a different temperature. -/
def sMonMorning : ForecastSample :=
  { day := 0, hour := 9, month := 7, desc := "rain", temp := 10 }

/-- The samples for the midday-selection witness: a morning and a midday
sample on the same Monday. -/
def samplesW : List ForecastSample := [sMonMorning, sMonNoon]

/-- The feature record the normalizer produces from `samplesW`. -/
def recW : DayFeatureRecord :=
  { date := 0, avg_temperature := 21, day_of_week := 0, month := 7, weather_code := 5 }

/-! ## Helper lemmas -/

/-- The loop invariant of the collection loop yields the normalizer
invariants for the accumulated records. -/
lemma normalizer_inv_concl {processed : List ℤ} {acc : List DayFeatureRecord}
    (hd : acc.map DayFeatureRecord.date = processed.reverse) (hnd : processed.Nodup)
    (hs : ∀ d ∈ processed, d % 7 ≠ 6) (hl : processed.length ≤ forecast_days_to_collect) :
    (acc.map DayFeatureRecord.date).Nodup ∧ (∀ r ∈ acc, r.date % 7 ≠ 6) ∧
      acc.length ≤ forecast_days_to_collect := by
  refine ⟨?_, ?_, ?_⟩
  · rw [hd]
    exact List.nodup_reverse.mpr hnd
  · intro r hr
    have hmem : r.date ∈ acc.map DayFeatureRecord.date := List.mem_map_of_mem _ hr
    rw [hd, List.mem_reverse] at hmem
    exact hs _ hmem
  · have hlen : acc.length = processed.length := by
      have := congrArg List.length hd
      simpa using this
    rw [hlen]
    exact hl

/-- Each run of the collection loop preserves its invariant: the record
dates are exactly the processed dates, duplicate-free, Sunday-free, and
at most `forecast_days_to_collect` many. -/
lemma normalizeAux_spec (samples : List ForecastSample) :
    ∀ (processed : List ℤ) (acc : List DayFeatureRecord),
      acc.map DayFeatureRecord.date = processed.reverse → processed.Nodup →
      (∀ d ∈ processed, d % 7 ≠ 6) → processed.length ≤ forecast_days_to_collect →
      ((normalizeAux samples processed acc).map DayFeatureRecord.date).Nodup ∧
        (∀ r ∈ normalizeAux samples processed acc, r.date % 7 ≠ 6) ∧
        (normalizeAux samples processed acc).length ≤ forecast_days_to_collect := by
  induction samples with
  | nil =>
    intro processed acc hd hnd hs hl
    rw [normalizeAux]
    exact normalizer_inv_concl hd hnd hs hl
  | cons e rest ih =>
    intro processed acc hd hnd hs hl
    by_cases hcond : e.hour = 12 ∧ e.day ∉ processed ∧
        processed.length < forecast_days_to_collect
    · by_cases hsun : e.day % 7 = 6
      · rw [normalizeAux, if_pos hcond, if_pos hsun]
        exact ih processed acc hd hnd hs hl
      · rw [normalizeAux, if_pos hcond, if_neg hsun]
        have hd2 : (acc ++ [mkDayRecord e]).map DayFeatureRecord.date =
            (e.day :: processed).reverse := by
          rw [List.map_append, hd, List.reverse_cons]
          rfl
        have hnd2 : (e.day :: processed).Nodup := List.nodup_cons.mpr ⟨hcond.2.1, hnd⟩
        have hs2 : ∀ d ∈ e.day :: processed, d % 7 ≠ 6 := by
          intro d hdm
          rcases List.mem_cons.mp hdm with h | h
          · rw [h]
            exact hsun
          · exact hs _ h
        have hl2 : (e.day :: processed).length ≤ forecast_days_to_collect := by
          have := hcond.2.2
          simp only [List.length_cons]
          omega
        by_cases hbreak : forecast_days_to_collect ≤ (e.day :: processed).length
        · rw [if_pos hbreak]
          exact normalizer_inv_concl hd2 hnd2 hs2 hl2
        · rw [if_neg hbreak]
          exact ih _ _ hd2 hnd2 hs2 hl2
    · rw [normalizeAux, if_neg hcond]
      by_cases hbreak : forecast_days_to_collect ≤ processed.length
      · rw [if_pos hbreak]
        exact normalizer_inv_concl hd hnd hs hl
      · rw [if_neg hbreak]
        exact ih processed acc hd hnd hs hl

/-- Every record the collection loop returns was either already
accumulated or built by `mkDayRecord` from a midday input sample. -/
lemma normalizeAux_mem (samples : List ForecastSample) :
    ∀ (processed : List ℤ) (acc : List DayFeatureRecord) (r : DayFeatureRecord),
      r ∈ normalizeAux samples processed acc →
      r ∈ acc ∨ ∃ e ∈ samples, e.hour = 12 ∧ r = mkDayRecord e := by
  induction samples with
  | nil =>
    intro processed acc r hr
    rw [normalizeAux] at hr
    exact Or.inl hr
  | cons e rest ih =>
    intro processed acc r hr
    by_cases hcond : e.hour = 12 ∧ e.day ∉ processed ∧
        processed.length < forecast_days_to_collect
    · by_cases hsun : e.day % 7 = 6
      · rw [normalizeAux, if_pos hcond, if_pos hsun] at hr
        rcases ih _ _ _ hr with h | ⟨e2, he2, h12, hre⟩
        · exact Or.inl h
        · exact Or.inr ⟨e2, List.mem_cons_of_mem _ he2, h12, hre⟩
      · rw [normalizeAux, if_pos hcond, if_neg hsun] at hr
        by_cases hbreak : forecast_days_to_collect ≤ (e.day :: processed).length
        · rw [if_pos hbreak] at hr
          rcases List.mem_append.mp hr with h | h
          · exact Or.inl h
          · have hre : r = mkDayRecord e := by simpa using h
            exact Or.inr ⟨e, List.mem_cons_self e rest, hcond.1, hre⟩
        · rw [if_neg hbreak] at hr
          rcases ih _ _ _ hr with h | ⟨e2, he2, h12, hre⟩
          · rcases List.mem_append.mp h with h1 | h1
            · exact Or.inl h1
            · have hre : r = mkDayRecord e := by simpa using h1
              exact Or.inr ⟨e, List.mem_cons_self e rest, hcond.1, hre⟩
          · exact Or.inr ⟨e2, List.mem_cons_of_mem _ he2, h12, hre⟩
    · rw [normalizeAux, if_neg hcond] at hr
      by_cases hbreak : forecast_days_to_collect ≤ processed.length
      · rw [if_pos hbreak] at hr
        exact Or.inl hr
      · rw [if_neg hbreak] at hr
        rcases ih _ _ _ hr with h | ⟨e2, he2, h12, hre⟩
        · exact Or.inl h
        · exact Or.inr ⟨e2, List.mem_cons_of_mem _ he2, h12, hre⟩

/-! ## Claim theorems -/

/-- C4: for every input sequence of forecast samples, the normalizer's
output has at most one record per calendar date, contains no record whose
date falls on the closed weekday (Sunday, `date % 7 = 6`), and has at
most 5 records. -/
theorem C4_normalizer_invariants (samples : List ForecastSample) :
    ((normalizeForecast samples).map DayFeatureRecord.date).Nodup ∧
    (∀ r ∈ normalizeForecast samples, r.date % 7 ≠ 6) ∧
    (normalizeForecast samples).length ≤ 5 := by
  have h := normalizeAux_spec samples [] [] (by simp) List.nodup_nil
    (by intro d hd; simp at hd) (by simp [forecast_days_to_collect])
  simpa [normalizeForecast, forecast_days_to_collect] using h

/-- C9: every record the normalizer emits takes its `avg_temperature`
directly from a single midday (hour 12) input sample of its date — the
month and weather code come from that same sample, and no averaging over
the date's other sub-daily samples happens. -/
theorem C9_midday_temperature (samples : List ForecastSample) (r : DayFeatureRecord)
    (hr : r ∈ normalizeForecast samples) :
    ∃ e ∈ samples, e.hour = 12 ∧ e.day = r.date ∧ r.avg_temperature = e.temp ∧
      r.month = e.month ∧ r.weather_code = weather_code_of e.desc := by
  rcases normalizeAux_mem samples [] [] r (by simpa [normalizeForecast] using hr) with
    h | ⟨e, he, h12, hre⟩
  · simp at h
  · subst hre
    exact ⟨e, he, h12, rfl, rfl, rfl, rfl⟩

/-- Witness for C9 at a concrete input: from a morning and a midday sample
of the same Monday, the produced record carries the midday temperature. -/
theorem C9_midday_temperature_witness :
    ∃ e ∈ samplesW, e.hour = 12 ∧ e.day = recW.date ∧ recW.avg_temperature = e.temp ∧
      recW.month = e.month ∧ recW.weather_code = weather_code_of e.desc :=
  C9_midday_temperature samplesW recW (by decide)

/-- C5: for every `today`, each slot's order date is the next occurrence
of the slot weekday on or after `today` (equal to `today` on the slot
weekday itself), the Monday coverage is `order_date+1 .. order_date+3`
and the Thursday coverage `order_date+1 .. order_date+4`; on a Wednesday
the Monday order date is strictly after `today` and the Thursday order
date is `today + 1`; coverage bounds are always ordered. -/
theorem C5_scheduler_windows (today : ℤ) :
    ((mondayWindow today).order_date % 7 = 0 ∧
      today ≤ (mondayWindow today).order_date ∧
      (mondayWindow today).order_date < today + 7 ∧
      (today % 7 = 0 → (mondayWindow today).order_date = today)) ∧
    ((thursdayWindow today).order_date % 7 = 3 ∧
      today ≤ (thursdayWindow today).order_date ∧
      (thursdayWindow today).order_date < today + 7 ∧
      (today % 7 = 3 → (thursdayWindow today).order_date = today)) ∧
    ((mondayWindow today).coverage_start = (mondayWindow today).order_date + 1 ∧
      (mondayWindow today).coverage_end = (mondayWindow today).order_date + 3) ∧
    ((thursdayWindow today).coverage_start = (thursdayWindow today).order_date + 1 ∧
      (thursdayWindow today).coverage_end = (thursdayWindow today).order_date + 4) ∧
    (today % 7 = 2 → today < (mondayWindow today).order_date ∧
      (thursdayWindow today).order_date = today + 1) ∧
    (mondayWindow today).coverage_start ≤ (mondayWindow today).coverage_end ∧
    (thursdayWindow today).coverage_start ≤ (thursdayWindow today).coverage_end := by
  simp only [mondayWindow, thursdayWindow, next_monday_order_day, next_thursday_order_day,
    and_self, and_true, true_and]
  omega

/-- Witness for C5 at `today = 2`, a Wednesday: the Monday order date is
strictly later and the Thursday order date is the next day. -/
theorem C5_scheduler_windows_witness :
    2 < (mondayWindow 2).order_date ∧ (thursdayWindow 2).order_date = 2 + 1 :=
  (C5_scheduler_windows 2).2.2.2.2.1 (by decide)

/-- C10: no calendar date lies in both the Monday slot's coverage window
and the Thursday slot's coverage window, for any `today`. -/
theorem C10_coverage_windows_disjoint (today d : ℤ)
    (hmon : (mondayWindow today).coverage_start ≤ d ∧
      d ≤ (mondayWindow today).coverage_end) :
    ¬((thursdayWindow today).coverage_start ≤ d ∧
      d ≤ (thursdayWindow today).coverage_end) := by
  simp only [mondayWindow, thursdayWindow, next_monday_order_day,
    next_thursday_order_day] at hmon ⊢
  omega

/-- Witness for C10 at `today = 0` and the date 1, which the Monday window
covers and the Thursday window therefore cannot. -/
theorem C10_coverage_windows_disjoint_witness :
    ¬((thursdayWindow 0).coverage_start ≤ 1 ∧
      (1 : ℤ) ≤ (thursdayWindow 0).coverage_end) :=
  C10_coverage_windows_disjoint 0 1 (by decide)

/-- The Monday slot is labelled 月. -/
lemma mondayWindow_label (today : ℤ) : (mondayWindow today).label = "月" := rfl

/-- The Thursday slot is labelled 木. -/
lemma thursdayWindow_label (today : ℤ) : (thursdayWindow today).label = "木" := rfl

/-- With a non-empty beer-type list, `calculate_order_period_sum` returns
the empty dict exactly when no record's date falls inside the window. -/
lemma calc_sum_eq_nil_iff (records : List EnrichedDayRecord) (beerTypes : List String)
    (s e : ℤ) (hbt : beerTypes ≠ []) :
    calculate_order_period_sum records beerTypes s e = [] ↔
      ∀ r ∈ records, ¬(s ≤ r.date ∧ r.date ≤ e) := by
  unfold calculate_order_period_sum
  by_cases hfil : (records.filter fun r => decide (s ≤ r.date ∧ r.date ≤ e)) = []
  · rw [if_pos (by rw [hfil]; rfl)]
    constructor
    · intro _ r hr
      have h := List.filter_eq_nil_iff.mp hfil r hr
      simpa using h
    · intro _
      rfl
  · rw [if_neg (fun hc => hfil (List.isEmpty_iff.mp hc))]
    constructor
    · intro hmap
      exfalso
      rcases beerTypes with _ | ⟨b, bs⟩
      · exact hbt rfl
      · simp at hmap
    · intro hall
      exfalso
      apply hfil
      rw [List.filter_eq_nil_iff]
      intro r hr
      simpa using hall r hr

/-- A Monday-labelled recommendation appears in the output exactly when
the Monday window's sum dict is truthy. -/
lemma build_exists_monday_iff (records : List EnrichedDayRecord) (beerTypes : List String)
    (today : ℤ) :
    (∃ rec ∈ build_order_recommendations records beerTypes today,
        rec.order_day_label = "月") ↔
      calculate_order_period_sum records beerTypes (mondayWindow today).coverage_start
        (mondayWindow today).coverage_end ≠ [] := by
  unfold build_order_recommendations
  by_cases hm : calculate_order_period_sum records beerTypes
      (mondayWindow today).coverage_start (mondayWindow today).coverage_end = []
  · rw [if_pos (by rw [hm]; rfl)]
    by_cases ht : calculate_order_period_sum records beerTypes
        (thursdayWindow today).coverage_start (thursdayWindow today).coverage_end = []
    · rw [if_pos (by rw [ht]; rfl)]
      simp [hm]
    · rw [if_neg (fun hc => ht (List.isEmpty_iff.mp hc))]
      simp only [List.nil_append, List.mem_singleton, exists_eq_left, hm, ne_eq,
        not_true_eq_false, iff_false]
      intro hlab
      simp only [thursdayRecommendation, thursdayWindow_label] at hlab
      exact absurd hlab (by decide)
  · rw [if_neg (fun hc => hm (List.isEmpty_iff.mp hc))]
    constructor
    · intro _
      exact hm
    · intro _
      exact ⟨mondayRecommendation records beerTypes today,
        List.mem_append.mpr (Or.inl (List.mem_singleton.mpr rfl)), rfl⟩

/-- A Thursday-labelled recommendation appears in the output exactly when
the Thursday window's sum dict is truthy. -/
lemma build_exists_thursday_iff (records : List EnrichedDayRecord) (beerTypes : List String)
    (today : ℤ) :
    (∃ rec ∈ build_order_recommendations records beerTypes today,
        rec.order_day_label = "木") ↔
      calculate_order_period_sum records beerTypes (thursdayWindow today).coverage_start
        (thursdayWindow today).coverage_end ≠ [] := by
  unfold build_order_recommendations
  by_cases ht : calculate_order_period_sum records beerTypes
      (thursdayWindow today).coverage_start (thursdayWindow today).coverage_end = []
  · by_cases hm : calculate_order_period_sum records beerTypes
        (mondayWindow today).coverage_start (mondayWindow today).coverage_end = []
    · rw [if_pos (by rw [hm]; rfl), if_pos (by rw [ht]; rfl)]
      simp [ht]
    · rw [if_neg (fun hc => hm (List.isEmpty_iff.mp hc)), if_pos (by rw [ht]; rfl)]
      simp only [List.append_nil, List.mem_singleton, exists_eq_left, ht, ne_eq,
        not_true_eq_false, iff_false]
      intro hlab
      simp only [mondayRecommendation, mondayWindow_label] at hlab
      exact absurd hlab (by decide)
  · by_cases hm : calculate_order_period_sum records beerTypes
        (mondayWindow today).coverage_start (mondayWindow today).coverage_end = []
    · rw [if_pos (by rw [hm]; rfl), if_neg (fun hc => ht (List.isEmpty_iff.mp hc))]
      constructor
      · intro _
        exact ht
      · intro _
        exact ⟨thursdayRecommendation records beerTypes today,
          List.mem_append.mpr (Or.inr (List.mem_singleton.mpr rfl)), rfl⟩
    · rw [if_neg (fun hc => hm (List.isEmpty_iff.mp hc)),
        if_neg (fun hc => ht (List.isEmpty_iff.mp hc))]
      constructor
      · intro _
        exact ht
      · intro _
        exact ⟨thursdayRecommendation records beerTypes today,
          List.mem_append.mpr (Or.inr (List.mem_singleton.mpr rfl)), rfl⟩

/-- C6: with the beer-type list the pipeline always passes here (non-empty
by the startup gate), a slot's OrderRecommendation is emitted exactly when
at least one enriched record's date falls inside that slot's inclusive
coverage window; a window with no matching record is silently dropped. -/
theorem C6_window_emission (records : List EnrichedDayRecord) (beerTypes : List String)
    (today : ℤ) (hbt : beerTypes ≠ []) :
    ((∃ rec ∈ build_order_recommendations records beerTypes today,
        rec.order_day_label = "月") ↔
      ∃ r ∈ records, (mondayWindow today).coverage_start ≤ r.date ∧
        r.date ≤ (mondayWindow today).coverage_end) ∧
    ((∃ rec ∈ build_order_recommendations records beerTypes today,
        rec.order_day_label = "木") ↔
      ∃ r ∈ records, (thursdayWindow today).coverage_start ≤ r.date ∧
        r.date ≤ (thursdayWindow today).coverage_end) := by
  constructor
  · rw [build_exists_monday_iff, ne_eq,
      calc_sum_eq_nil_iff records beerTypes _ _ hbt]
    push_neg
    rfl
  · rw [build_exists_thursday_iff, ne_eq,
      calc_sum_eq_nil_iff records beerTypes _ _ hbt]
    push_neg
    rfl

/-- Witness for C6 at a concrete input: one record inside the Monday
window of `today = 0` makes the Monday recommendation appear. -/
theorem C6_window_emission_witness :
    ∃ rec ∈ build_order_recommendations [erC] beerTypesW 0,
      rec.order_day_label = "月" :=
  ((C6_window_emission [erC] beerTypesW 0 (by decide)).1).mpr
    ⟨erC, List.mem_singleton.mpr rfl, by decide, by decide⟩

/-- C8: window aggregation is order-independent — permuting the enriched
records never changes the per-item sums — and a window containing no
record yields the empty (omitted) dict rather than an error. -/
theorem C8_aggregation_order_invariant (records1 records2 : List EnrichedDayRecord)
    (beerTypes : List String) (s e : ℤ) (hperm : records1.Perm records2) :
    calculate_order_period_sum records1 beerTypes s e =
      calculate_order_period_sum records2 beerTypes s e ∧
    ((∀ r ∈ records1, ¬(s ≤ r.date ∧ r.date ≤ e)) →
      calculate_order_period_sum records1 beerTypes s e = []) := by
  have hfp : (records1.filter fun r => decide (s ≤ r.date ∧ r.date ≤ e)).Perm
      (records2.filter fun r => decide (s ≤ r.date ∧ r.date ≤ e)) := hperm.filter _
  constructor
  · unfold calculate_order_period_sum
    by_cases h1 : (records1.filter fun r => decide (s ≤ r.date ∧ r.date ≤ e)) = []
    · have h2 : (records2.filter fun r => decide (s ≤ r.date ∧ r.date ≤ e)) = [] := by
        have hp2 := hfp.symm
        rw [h1] at hp2
        exact hp2.eq_nil
      rw [if_pos (by rw [h1]; rfl), if_pos (by rw [h2]; rfl)]
    · have h2 : (records2.filter fun r => decide (s ≤ r.date ∧ r.date ≤ e)) ≠ [] := by
        intro h0
        apply h1
        have hp2 := hfp
        rw [h0] at hp2
        exact hp2.eq_nil
      rw [if_neg (fun hc => h1 (List.isEmpty_iff.mp hc)),
        if_neg (fun hc => h2 (List.isEmpty_iff.mp hc))]
      have hsum : ∀ k : String,
          ((records1.filter fun r => decide (s ≤ r.date ∧ r.date ≤ e)).map
            fun r => (r.predicted_beers.lookup k).getD 0).sum =
          ((records2.filter fun r => decide (s ≤ r.date ∧ r.date ≤ e)).map
            fun r => (r.predicted_beers.lookup k).getD 0).sum :=
        fun k => (hfp.map _).sum_eq
      simp only [hsum]
  · intro hall
    have hfil : (records1.filter fun r => decide (s ≤ r.date ∧ r.date ≤ e)) = [] := by
      rw [List.filter_eq_nil_iff]
      intro r hr
      simpa using hall r hr
    unfold calculate_order_period_sum
    rw [if_pos (by rw [hfil]; rfl)]

/-- Witness for C8 at a concrete input: swapping two enriched records
leaves the window sums unchanged. -/
theorem C8_aggregation_order_invariant_witness :
    calculate_order_period_sum [erA, erB] beerTypesW 0 10 =
      calculate_order_period_sum [erB, erA] beerTypesW 0 10 :=
  (C8_aggregation_order_invariant [erA, erB] [erB, erA] beerTypesW 0 10
    (List.Perm.swap erB erA [])).1

/-- Rounding a ℚ that is an integer returns that integer. -/
lemma npRound_intCast (n : ℤ) : npRound ((n : ℚ)) = n := by
  simp [npRound]

/-- Counterexample to C2: with a visitor model predicting -5 the day-level
prediction is negative — the code applies `np.round(...).astype(int)` to
`来客数`/`総杯数` without the `max(0, ...)` clamp it uses for beers. -/
theorem C2_counterexample :
    (enrich cfgNegVisitors recMonday).predicted_visitors < 0 := by
  have h1 : (enrich cfgNegVisitors recMonday).predicted_visitors = npRound (-5 : ℚ) := rfl
  have h2 : npRound (-5 : ℚ) = -5 := by
    have h3 := npRound_intCast (-5)
    norm_num at h3
    exact h3
  rw [h1, h2]
  decide

/-- C2 amended: day-level predictions are the bare rounded model outputs
(no clamp at 0, so they can be negative), with the non-negative fixed
averages substituted when a model is absent; only the per-item (beer)
predictions are clamped at 0. -/
theorem C2_day_level_rounding_amended (cfg : PipelineConfig) (r : DayFeatureRecord) :
    (∀ kv ∈ (enrich cfg r).predicted_beers, 0 ≤ kv.2) ∧
    (cfg.visitorsModel = none → (enrich cfg r).predicted_visitors = AVG_VISITORS) ∧
    (∀ f, cfg.visitorsModel = some f → (enrich cfg r).predicted_visitors =
      npRound (f r.avg_temperature r.day_of_week r.month r.weather_code)) ∧
    (cfg.cupsModel = none → (enrich cfg r).predicted_total_units = AVG_CUPS) ∧
    (∀ f, cfg.cupsModel = some f → (enrich cfg r).predicted_total_units =
      npRound (f r.avg_temperature r.day_of_week r.month r.weather_code)) ∧
    0 ≤ AVG_VISITORS ∧ 0 ≤ AVG_CUPS := by
  refine ⟨?_, ?_, ?_, ?_, ?_, by decide, by decide⟩
  · intro kv hkv
    simp only [enrich] at hkv
    rcases List.mem_map.mp hkv with ⟨kf, hkf, heq⟩
    rw [← heq]
    exact le_max_left 0 _
  · intro h
    simp [enrich, h]
  · intro f h
    simp [enrich, h]
  · intro h
    simp [enrich, h]
  · intro f h
    simp [enrich, h]

/-- Witness for C2 amended: with the visitor model absent the fixed
average is used. -/
theorem C2_day_level_rounding_amended_witness :
    (enrich cfgNoVisitors recMonday).predicted_visitors = AVG_VISITORS :=
  (C2_day_level_rounding_amended cfgNoVisitors recMonday).2.1 rfl

/-- Counterexample to C3: on a Tuesday (`today = 1`) both slots emit but
the Monday slot comes first with the later order date (7 vs 3), so the
output is not ordered by ascending `order_date`. -/
theorem C3_counterexample :
    ¬ List.Pairwise (fun a b => a.order_date ≤ b.order_date)
        (build_order_recommendations [erA, erB] beerTypesW 1) := by
  decide

/-- C3 amended: the output is in fixed slot order — the Monday slot's
recommendation (label 月) first, then the Thursday slot's (label 木).
When today's weekday is Monday, Friday, Saturday or Sunday the list is
ascending by `order_date`; when today's weekday is Tuesday, Wednesday or
Thursday and both slots emit, the list is exactly the Monday slot's
recommendation followed by the Thursday slot's, whose `order_date` is
strictly smaller, so the list is then not ascending by `order_date`. -/
theorem C3_slot_order_amended (records : List EnrichedDayRecord) (beerTypes : List String)
    (today : ℤ) :
    ((build_order_recommendations records beerTypes today).map
      OrderRecommendation.order_day_label).Sublist ["月", "木"] ∧
    (today % 7 = 0 ∨ 4 ≤ today % 7 →
      (build_order_recommendations records beerTypes today).Pairwise
        (fun a b => a.order_date ≤ b.order_date)) ∧
    (today % 7 = 1 ∨ today % 7 = 2 ∨ today % 7 = 3 →
      calculate_order_period_sum records beerTypes (mondayWindow today).coverage_start
        (mondayWindow today).coverage_end ≠ [] →
      calculate_order_period_sum records beerTypes (thursdayWindow today).coverage_start
        (thursdayWindow today).coverage_end ≠ [] →
      build_order_recommendations records beerTypes today =
        [mondayRecommendation records beerTypes today,
          thursdayRecommendation records beerTypes today] ∧
      (thursdayRecommendation records beerTypes today).order_date <
        (mondayRecommendation records beerTypes today).order_date ∧
      ¬ (build_order_recommendations records beerTypes today).Pairwise
        (fun a b => a.order_date ≤ b.order_date)) := by
  have hmt : today % 7 = 0 ∨ 4 ≤ today % 7 →
      next_monday_order_day today ≤ next_thursday_order_day today := by
    unfold next_monday_order_day next_thursday_order_day
    omega
  unfold build_order_recommendations
  by_cases hm : calculate_order_period_sum records beerTypes
      (mondayWindow today).coverage_start (mondayWindow today).coverage_end = []
  · rw [if_pos (by rw [hm]; rfl)]
    by_cases ht : calculate_order_period_sum records beerTypes
        (thursdayWindow today).coverage_start (thursdayWindow today).coverage_end = []
    · rw [if_pos (by rw [ht]; rfl)]
      exact ⟨by simp, fun _ => by simp, fun _ hmon _ => absurd hm hmon⟩
    · rw [if_neg (fun hc => ht (List.isEmpty_iff.mp hc))]
      refine ⟨?_, fun _ => by simp, fun _ hmon _ => absurd hm hmon⟩
      simp only [List.nil_append, List.map_cons, List.map_nil, thursdayRecommendation,
        thursdayWindow_label]
      exact List.Sublist.cons _ (List.Sublist.refl _)
  · rw [if_neg (fun hc => hm (List.isEmpty_iff.mp hc))]
    by_cases ht : calculate_order_period_sum records beerTypes
        (thursdayWindow today).coverage_start (thursdayWindow today).coverage_end = []
    · rw [if_pos (by rw [ht]; rfl)]
      refine ⟨?_, fun _ => by simp, fun _ _ hton => absurd ht hton⟩
      simp only [List.append_nil, List.map_cons, List.map_nil, mondayRecommendation,
        mondayWindow_label]
      exact List.Sublist.cons₂ _ (List.nil_sublist _)
    · rw [if_neg (fun hc => ht (List.isEmpty_iff.mp hc))]
      refine ⟨?_, ?_, ?_⟩
      · simp only [List.singleton_append, List.map_cons, List.map_nil, mondayRecommendation,
          thursdayRecommendation, mondayWindow_label, thursdayWindow_label]
        exact List.Sublist.refl _
      · intro hwd
        simp only [List.singleton_append, List.pairwise_cons, List.mem_singleton,
          List.not_mem_nil, List.Pairwise.nil, mondayRecommendation, thursdayRecommendation,
          mondayWindow, thursdayWindow]
        refine ⟨?_, fun b hb => absurd hb not_false, trivial⟩
        intro b hb
        rw [hb]
        exact hmt hwd
      · intro hwd3 _ _
        have hlt : (thursdayRecommendation records beerTypes today).order_date <
            (mondayRecommendation records beerTypes today).order_date := by
          simp only [mondayRecommendation, thursdayRecommendation, mondayWindow,
            thursdayWindow, next_monday_order_day, next_thursday_order_day]
          omega
        refine ⟨rfl, hlt, ?_⟩
        intro hp
        rw [List.singleton_append] at hp
        have hle := (List.pairwise_cons.mp hp).1 _ (List.mem_singleton.mpr rfl)
        exact absurd hle (not_le.mpr hlt)

/-- Witness for C3 amended: at `today = 0` (a Monday) the output is sorted
by ascending order date, while at `today = 1` (a Tuesday) with both
windows populated it is not. -/
theorem C3_slot_order_amended_witness :
    (build_order_recommendations [erC] beerTypesW 0).Pairwise
      (fun a b => a.order_date ≤ b.order_date) ∧
    ¬ (build_order_recommendations [erA, erB] beerTypesW 1).Pairwise
      (fun a b => a.order_date ≤ b.order_date) :=
  ⟨(C3_slot_order_amended [erC] beerTypesW 0).2.1 (Or.inl (by decide)),
    ((C3_slot_order_amended [erA, erB] beerTypesW 1).2.2 (by decide) (by decide)
      (by decide)).2.2⟩

/-- Counterexample to C1: with both day-level models loaded but no beer
model, the gate `if not CUSTOMER_MODELS or not BEER_MODELS` still fails
the request even though day-level predictors are available. -/
theorem C1_counterexample :
    cfgCustomerOnly.visitorsModel.isSome = true ∧
    get_order_recommendations cfgCustomerOnly (Except.ok [sMonNoon]) 0 =
      RunResult.predictionUnavailable :=
  ⟨rfl, rfl⟩

/-- C1 amended: the models-not-ready failure occurs exactly when the
day-level registry is empty OR the item-level registry is empty; both
groups must be non-empty for the run to proceed. -/
theorem C1_gate_amended (cfg : PipelineConfig)
    (fetch : Except FetchOutcomeError (List ForecastSample)) (today : ℤ) :
    get_order_recommendations cfg fetch today = RunResult.predictionUnavailable ↔
      (cfg.visitorsModel = none ∧ cfg.cupsModel = none) ∨ cfg.beerModels = [] := by
  unfold get_order_recommendations
  by_cases hgate : ((cfg.visitorsModel.isNone && cfg.cupsModel.isNone) ||
      cfg.beerModels.isEmpty) = true
  · rw [if_pos hgate]
    constructor
    · intro _
      simpa [Bool.or_eq_true, Bool.and_eq_true, Option.isNone_iff_eq_none,
        List.isEmpty_iff] using hgate
    · intro _
      rfl
  · rw [if_neg hgate]
    constructor
    · intro h
      exfalso
      cases fetch with
      | error err =>
        cases err
        · exact RunResult.noConfusion h
        · exact RunResult.noConfusion h
      | ok samples =>
        dsimp only at h
        by_cases hrec : (normalizeForecast samples).isEmpty = true
        · rw [if_pos hrec] at h
          exact RunResult.noConfusion h
        · rw [if_neg hrec] at h
          exact RunResult.noConfusion h
    · intro hd
      exfalso
      apply hgate
      rcases hd with ⟨h1, h2⟩ | hb
      · simp [h1, h2]
      · simp [hb]

/-- C7: when the models are loaded and the fetch succeeds but zero
open-business dates survive filtering, the pipeline returns the 404
no-forecast-data failure, which is distinct from the fetch failure, the
configuration failure, and from every successful response (in particular
a successful empty list is never returned). -/
theorem C7_no_data_404 (cfg : PipelineConfig) (samples : List ForecastSample) (today : ℤ)
    (hcust : ¬(cfg.visitorsModel = none ∧ cfg.cupsModel = none))
    (hbeer : cfg.beerModels ≠ [])
    (hempty : normalizeForecast samples = []) :
    get_order_recommendations cfg (Except.ok samples) today = RunResult.noForecastData ∧
    (∀ recs, RunResult.noForecastData ≠ RunResult.success recs) ∧
    RunResult.noForecastData ≠ RunResult.upstreamFetchError ∧
    RunResult.noForecastData ≠ RunResult.configurationError := by
  refine ⟨?_, fun recs h => RunResult.noConfusion h, fun h => RunResult.noConfusion h,
    fun h => RunResult.noConfusion h⟩
  unfold get_order_recommendations
  have hgate : ((cfg.visitorsModel.isNone && cfg.cupsModel.isNone) ||
      cfg.beerModels.isEmpty) = false := by
    cases hv : cfg.visitorsModel <;> cases hc : cfg.cupsModel <;>
      cases hb : cfg.beerModels <;> simp_all
  rw [if_neg (by simp [hgate])]
  dsimp only
  rw [if_pos (by rw [hempty]; rfl)]

/-- Witness for C7: a forecast consisting of a single Sunday-noon sample
normalizes to nothing and yields the 404 failure. -/
theorem C7_no_data_404_witness :
    get_order_recommendations cfgFull (Except.ok [sSunNoon]) 0 =
      RunResult.noForecastData :=
  (C7_no_data_404 cfgFull [sSunNoon] 0 (by simp [cfgFull]) (by simp [cfgFull]) rfl).1
